import Mathlib

/-!
Shallow embedding of the `pohb` repository's core logic.

The vector clock (`OrdinaryClock`, `src/lib.rs`) is a `HashMap<NodeId, u32>`;
we embed it as an association list `List (NodeId × Nat)`.  The `HashMap`
invariant (no duplicate keys) is expressed by the predicate `keysNodup` and
assumed as a hypothesis where a theorem needs it.  Counts are `u32` in the
source; arithmetic in `OrdinaryClock.new` is taken modulo `2 ^ 32` to mirror
wrapping `u32` addition (comparisons involve no arithmetic, so no bound is
needed there).  Iteration order over a map's entries is unspecified for
`HashMap`; we iterate in list order, which is sound because every update in
the source touches each key of a single map at most once per pass.
-/

/-- `NodeId` (`u32` in `src/lib.rs`). -/
abbrev NodeId := Nat

/-- `OrdinaryClock(pub HashMap<NodeId, u32>)` from `src/lib.rs`, embedded as an
association list from node id to count. -/
abbrev OrdinaryClock := List (NodeId × Nat)

/-- `self.get(k).copied().unwrap_or_default()`: the count stored for `k`, `0`
when absent. -/
def getD (m : OrdinaryClock) (k : NodeId) : Nat :=
  match m.find? (fun e => e.fst == k) with
  | some e => e.snd
  | none => 0

/-- The `HashMap` key invariant: an association list represents a map only
when its keys are distinct. -/
def keysNodup (m : OrdinaryClock) : Prop :=
  (m.map Prod.fst).Nodup

instance (m : OrdinaryClock) : Decidable (keysNodup m) := by
  unfold keysNodup; infer_instance

/-- `value.entry(k).or_default()` followed by writing `f` of the old count:
modify the entry for `k` in place, inserting `f 0` when `k` is absent. -/
def updateEntry (m : OrdinaryClock) (k : NodeId) (f : Nat → Nat) : OrdinaryClock :=
  match m with
  | [] => [(k, f 0)]
  | (k', v) :: rest =>
    if k' == k then (k', f v) :: rest else (k', v) :: updateEntry rest k f

namespace OrdinaryClock

/-- `OrdinaryClock::new_genesis` (`src/lib.rs:84`): the default (empty) map. -/
def new_genesis : OrdinaryClock := []

/-- `OrdinaryClock::new(deps, id)` (`src/lib.rs:88-97`): fold over the
dependency clocks; for each entry `(other_id, seq)` of a dependency, set the
accumulated count for `other_id` to
`max(the_seq, seq) + (other_id == id) as u32`, with wrapping `u32` addition. -/
def new (deps : List OrdinaryClock) (id : NodeId) : OrdinaryClock :=
  deps.foldl
    (fun value dep =>
      dep.foldl
        (fun value e =>
          updateEntry value e.fst
            (fun the_seq =>
              (Nat.max the_seq e.snd + (if e.fst == id then 1 else 0)) % 2 ^ 32))
        value)
    []

/-- `OrdinaryClock::is_genesis` (`src/lib.rs:99-101`): all stored counts are
zero. -/
def is_genesis (c : OrdinaryClock) : Bool :=
  c.all (fun e => e.snd == 0)

/-- `PartialOrd::ge` for `OrdinaryClock` (`src/lib.rs:105-109`): every entry of
`other` is dominated by `self`'s count for that id (`0` when absent). -/
def ge (self other : OrdinaryClock) : Bool :=
  other.all (fun e => decide (getD self e.fst ≥ e.snd))

/-- `PartialOrd::partial_cmp` for `OrdinaryClock` (`src/lib.rs:111-118`). -/
def partialCmp (self other : OrdinaryClock) : Option Ordering :=
  match self.ge other, other.ge self with
  | true, true => some Ordering.eq
  | true, false => some Ordering.gt
  | false, true => some Ordering.lt
  | false, false => none

/-- `PartialEq::eq` for `OrdinaryClock` (`src/lib.rs:121-125`):
`matches!(self.partial_cmp(other), Some(Ordering::Equal))`. -/
def eq (self other : OrdinaryClock) : Bool :=
  match self.partialCmp other with
  | some Ordering.eq => true
  | _ => false

end OrdinaryClock

/-- `OrdinaryContext::prove` (`src/lib.rs:167-177`): ignore the inputs and the
output and return `OrdinaryClock::new` of the predecessor clocks, tagged with
the context's node id.  Always `Ok`. -/
def OrdinaryContext.prove {I O : Type} (id : NodeId)
    (predecessors : List (OrdinaryClock × I)) (_output : O) :
    Except String OrdinaryClock :=
  Except.ok (OrdinaryClock.new (predecessors.map Prod.fst) id)

/-- `Workflow` (`src/lib.rs:180-183`). -/
structure Workflow where
  stages : List String

/-- `StageSource` (`src/lib.rs:185-189`). -/
inductive StageSource where
  | Start : StageSource
  | Name : String → StageSource
deriving DecidableEq, Repr

/-- `TaskStage<C, I>` (`src/lib.rs:191-197`); the `clocks` map is embedded as
an association list from stage name to clock. -/
structure TaskStage (C I : Type) where
  id : Nat
  source : StageSource
  input : I
  clocks : List (String × C)

/-- `TaskResult<C, O>` (`src/lib.rs:199-204`). -/
structure TaskResult (C O : Type) where
  id : Nat
  output : O
  clocks : List (String × C)

/-- `clocks.get(stage)` on the embedded map. -/
def lookupStage {C : Type} (clocks : List (String × C)) (stage : String) : Option C :=
  match clocks.find? (fun e => e.fst == stage) with
  | some e => some e.snd
  | none => none

/-- The errors the verification code in `src/lib.rs` / `src/chain.rs` can
produce: `anyhow::format_err!("missing clock value of stage {stage}")`,
the `anyhow::ensure!` on the clock comparison, and an error propagated from
`context.verify` (spec names: MissingClock, CausalityViolation,
AuthenticityFailure). -/
inductive VerifyError where
  | missingClock : String → VerifyError
  | causalityViolation : VerifyError
  | authenticity : String → VerifyError
deriving DecidableEq, Repr

/-- `task.stages.windows(2)` as a list of consecutive pairs. -/
def consecutivePairs {α : Type} : List α → List (α × α)
  | a :: b :: rest => (a, b) :: consecutivePairs (b :: rest)
  | _ => []

/-- The loop body of the free function `verify` (`src/lib.rs:213-239`), over
the list of consecutive stage pairs.  A clock client context is embedded as
its `partial_cmp` function `pcmp` and its `verify` function `cv`. -/
def verifyPairs {C O : Type} (pcmp : C → C → Option Ordering)
    (cv : C → O → Except String Unit) (clocks : List (String × C))
    (output_stage : String) (output : O) :
    List (String × String) → Except VerifyError Unit
  | [] => Except.ok ()
  | (stage, next_stage) :: rest =>
    match lookupStage clocks stage with
    | none => Except.error (VerifyError.missingClock stage)
    | some clock =>
      match lookupStage clocks next_stage with
      | none => Except.error (VerifyError.missingClock next_stage)
      | some next_clock =>
        if pcmp next_clock clock = some Ordering.gt then
          if next_stage = output_stage then
            match cv next_clock output with
            | Except.ok _ => verifyPairs pcmp cv clocks output_stage output rest
            | Except.error e => Except.error (VerifyError.authenticity e)
          else verifyPairs pcmp cv clocks output_stage output rest
        else Except.error VerifyError.causalityViolation

/-- The free function `verify` (`src/lib.rs:206-241`); named `verifyStages`
here because the method embeddings below would otherwise shadow the name. -/
def verifyStages {C O : Type} (pcmp : C → C → Option Ordering)
    (cv : C → O → Except String Unit) (clocks : List (String × C))
    (output_stage : String) (output : O) (task : Workflow) :
    Except VerifyError Unit :=
  verifyPairs pcmp cv clocks output_stage output (consecutivePairs task.stages)

/-- `TaskStage::verify` (`src/lib.rs:243-256`). -/
def TaskStage.verify {C I : Type} (pcmp : C → C → Option Ordering)
    (cv : C → I → Except String Unit) (self : TaskStage C I) (task : Workflow) :
    Except VerifyError Unit :=
  match self.source with
  | StageSource.Start => Except.ok ()
  | StageSource.Name last_stage =>
    verifyStages pcmp cv self.clocks last_stage self.input task

/-- `TaskResult::verify` (`src/lib.rs:258-269`). -/
def TaskResult.verify {C O : Type} (pcmp : C → C → Option Ordering)
    (cv : C → O → Except String Unit) (self : TaskResult C O) (task : Workflow) :
    Except VerifyError Unit :=
  match task.stages.getLast? with
  | none => Except.ok ()
  | some last_stage => verifyStages pcmp cv self.clocks last_stage self.output task

/-- The loop body of `chain::verify` (`src/chain.rs:10-37`): identical to
`verifyPairs` except that the terminal test is
`Some(next_stage) == task.stages.last()`, here received as `last`. -/
def chainVerifyPairs {C O : Type} (pcmp : C → C → Option Ordering)
    (cv : C → O → Except String Unit) (clocks : List (String × C))
    (last : Option String) (output : O) :
    List (String × String) → Except VerifyError Unit
  | [] => Except.ok ()
  | (stage, next_stage) :: rest =>
    match lookupStage clocks stage with
    | none => Except.error (VerifyError.missingClock stage)
    | some clock =>
      match lookupStage clocks next_stage with
      | none => Except.error (VerifyError.missingClock next_stage)
      | some next_clock =>
        if pcmp next_clock clock = some Ordering.gt then
          if some next_stage = last then
            match cv next_clock output with
            | Except.ok _ => chainVerifyPairs pcmp cv clocks last output rest
            | Except.error e => Except.error (VerifyError.authenticity e)
          else chainVerifyPairs pcmp cv clocks last output rest
        else Except.error VerifyError.causalityViolation

namespace chain

/-- `chain::verify` (`src/chain.rs:5-39`). -/
def verify {C O : Type} (pcmp : C → C → Option Ordering)
    (cv : C → O → Except String Unit) (task_result : TaskResult C O)
    (task : Workflow) : Except VerifyError Unit :=
  chainVerifyPairs pcmp cv task_result.clocks task.stages.getLast?
    task_result.output (consecutivePairs task.stages)

end chain

/-- The response of `chain_propose` (`src/bin/network.rs:73-79`): either
`StatusCode::OK` or `(StatusCode::FORBIDDEN, err)`. -/
inductive ProposeResponse where
  | accepted : ProposeResponse
  | forbidden : VerifyError → ProposeResponse
deriving DecidableEq, Repr

/-- `chain_propose` (`src/bin/network.rs:73-79`) as a state transition on the
chain watch channel's retained value: on verification failure return the
rejection response and leave the retained value unchanged; otherwise retain
`some message` (the broadcast) and return `accepted`. -/
def chain_propose {C O : Type} (pcmp : C → C → Option Ordering)
    (cv : C → O → Except String Unit) (task : Workflow)
    (chainState : Option (TaskResult C O)) (message : TaskResult C O) :
    Option (TaskResult C O) × ProposeResponse :=
  match chain.verify pcmp cv message task with
  | Except.error e => (chainState, ProposeResponse.forbidden e)
  | Except.ok _ => (some message, ProposeResponse.accepted)

/-- `OrdinaryClientContext::verify` (`src/lib.rs:141-143`): always `Ok`. -/
def OrdinaryClientContext.verify {O : Type} (_ : OrdinaryClock) (_ : O) :
    Except String Unit :=
  Except.ok ()

-- sanity checks of the embedding on concrete values
example : OrdinaryClock.new [[(3, 5)]] 1 = [(3, 5)] := by decide
example : OrdinaryClock.new [] 1 = [] := by decide
example : OrdinaryClock.new [[(1, 5)], [(1, 5)]] 1 = [(1, 7)] := by decide
example : OrdinaryClock.partialCmp [(1, 2)] [(1, 1)] = some Ordering.gt := by decide
example : OrdinaryClock.partialCmp [(1, 1)] [(2, 1)] = none := by decide
example : OrdinaryClock.partialCmp [(1, 0)] [] = some Ordering.eq := by decide
example :
    TaskStage.verify OrdinaryClock.partialCmp OrdinaryClientContext.verify
      (⟨42, StageSource.Name "a", (), [("a", [(1, 1)])]⟩ : TaskStage OrdinaryClock Unit)
      ⟨["a", "b"]⟩ = Except.error (VerifyError.missingClock "b") := by
  rfl

/-! ### Helper lemmas about the association-list map -/

/-- In a map with distinct keys, `find?` on an element's key returns exactly
that element. -/
theorem find_eq_of_mem (l : OrdinaryClock) (hl : keysNodup l) (e : NodeId × Nat)
    (he : e ∈ l) : l.find? (fun x => x.fst == e.fst) = some e := by
  induction l with
  | nil => cases he
  | cons a as ih =>
    unfold keysNodup at hl
    rw [List.map_cons, List.nodup_cons] at hl
    rcases List.mem_cons.mp he with rfl | hmem
    · exact List.find?_cons_of_pos _ (by simp)
    · have h1 : e.1 ∈ as.map Prod.fst := List.mem_map_of_mem _ hmem
      have hne : ¬ (a.1 == e.1) = true := by
        simp only [beq_iff_eq]
        intro hEq
        exact hl.1 (hEq ▸ h1)
      rw [@List.find?_cons_of_neg _ (fun x => x.fst == e.fst) a as hne]
      exact ih hl.2 hmem

/-- In a map with distinct keys, the stored count of a member entry is read
back by `getD`. -/
theorem getD_eq_of_mem (l : OrdinaryClock) (hl : keysNodup l) (e : NodeId × Nat)
    (he : e ∈ l) : getD l e.1 = e.2 := by
  unfold getD
  rw [find_eq_of_mem l hl e he]

/-- `ge` is reflexive on maps with distinct keys. -/
theorem ge_refl_of_nodup (A : OrdinaryClock) (hA : keysNodup A) :
    A.ge A = true := by
  unfold OrdinaryClock.ge
  rw [List.all_eq_true]
  intro e he
  rw [decide_eq_true_eq, getD_eq_of_mem A hA e he]

/-- If two maps with distinct keys denote the same total count function, each
dominates the other. -/
theorem ge_of_getD_eq (A B : OrdinaryClock) (hB : keysNodup B)
    (h : ∀ id, getD A id = getD B id) : A.ge B = true := by
  unfold OrdinaryClock.ge
  rw [List.all_eq_true]
  intro e he
  rw [decide_eq_true_eq, h e.1, getD_eq_of_mem B hB e he]

/-! ### Claims -/

/-- C1: refuted on the code.  The claim (and the post-condition documented on
`ClockContext::prove`, `src/lib.rs:55-57`) requires the clock returned by
`OrdinaryContext::prove` to compare strictly causally-after every predecessor
clock.  With the single predecessor clock `{3: 5}` and producing node `1`,
`OrdinaryClock::new` never touches the producing node's entry (it only folds
over ids present in the predecessors), so the returned clock is `{3: 5}`,
which compares `Equal` — not `Greater` — to the predecessor. -/
theorem c1_prove_not_strictly_after :
    @OrdinaryContext.prove Unit Unit 1 [([(3, 5)], ())] () =
      Except.ok [(3, 5)] ∧
    OrdinaryClock.partialCmp (OrdinaryClock.new [[(3, 5)]] 1) [(3, 5)] =
      some Ordering.eq :=
  ⟨rfl, by decide⟩

/-- C2: refuted on the code.  The claim says `OrdinaryClock::new` applies
exactly one extra increment to the producing node's own entry even when that
id appears in no predecessor (so with an empty predecessor list the result
maps `id` to `1`).  The code instead adds the increment once per predecessor
occurrence of the id: with no predecessors the result is the empty clock
(mapping `1` to `0`), and with two predecessors both mapping `1` to `5` the
result maps `1` to `7` instead of the claimed `max + 1 = 6`. -/
theorem c2_new_missing_self_increment :
    OrdinaryClock.new [] 1 = [] ∧
    getD (OrdinaryClock.new [] 1) 1 = 0 ∧
    OrdinaryClock.new [[(1, 5)], [(1, 5)]] 1 = [(1, 7)] :=
  ⟨rfl, rfl, by decide⟩

/-- C3: refuted on the code.  A `TaskStage` message for workflow `["a", "b"]`
with `source = Name("a")` and clocks map exactly `{"a": {1: 1}}` is claimed to
pass `TaskStage::verify` (stage "b" accepts it).  The verification loop in
`src/lib.rs:213-239` iterates over every consecutive stage pair of the whole
workflow, so it demands a clock entry for stage "b" that cannot exist yet and
rejects the message with the missing-clock error. -/
theorem c3_stage_b_rejects_message_from_a :
    TaskStage.verify OrdinaryClock.partialCmp OrdinaryClientContext.verify
      (⟨42, StageSource.Name "a", (), [("a", [(1, 1)])]⟩ : TaskStage OrdinaryClock Unit)
      ⟨["a", "b"]⟩ = Except.error (VerifyError.missingClock "b") :=
  rfl

/-- C4: for all `OrdinaryClock` values `A` and `B` (with `A` satisfying the
`HashMap` distinct-keys invariant), `partial_cmp A B` is the inverse ordering
of `partial_cmp B A` (`Greater` swaps with `Less`, `Equal` and `None` are
fixed), and `A == A`; moreover `ge A B` holds iff for every entry of `B` the
count `A` stores for that id (`0` if absent) dominates it, and `partial_cmp`
yields `Equal` / `Greater` / `Less` / `None` exactly as the two-directional
`ge` test dictates. -/
theorem c4_partialCmp_antisymm_refl (A B : OrdinaryClock) (hA : keysNodup A) :
    A.partialCmp B = Option.map Ordering.swap (B.partialCmp A) ∧
    OrdinaryClock.eq A A = true ∧
    (A.ge B = true ↔ ∀ e ∈ B, e.2 ≤ getD A e.1) ∧
    (A.partialCmp B = some Ordering.eq ↔ (A.ge B = true ∧ B.ge A = true)) ∧
    (A.partialCmp B = some Ordering.gt ↔ (A.ge B = true ∧ B.ge A = false)) ∧
    (A.partialCmp B = some Ordering.lt ↔ (A.ge B = false ∧ B.ge A = true)) ∧
    (A.partialCmp B = none ↔ (A.ge B = false ∧ B.ge A = false)) := by
  refine ⟨?_, ?_, ?_, ?_, ?_, ?_, ?_⟩
  · cases hab : A.ge B <;> cases hba : B.ge A <;>
      simp [OrdinaryClock.partialCmp, hab, hba, Ordering.swap]
  · have h := ge_refl_of_nodup A hA
    simp [OrdinaryClock.eq, OrdinaryClock.partialCmp, h]
  · simp [OrdinaryClock.ge, List.all_eq_true, ge_iff_le]
  · cases hab : A.ge B <;> cases hba : B.ge A <;>
      simp [OrdinaryClock.partialCmp, hab, hba]
  · cases hab : A.ge B <;> cases hba : B.ge A <;>
      simp [OrdinaryClock.partialCmp, hab, hba]
  · cases hab : A.ge B <;> cases hba : B.ge A <;>
      simp [OrdinaryClock.partialCmp, hab, hba]
  · cases hab : A.ge B <;> cases hba : B.ge A <;>
      simp [OrdinaryClock.partialCmp, hab, hba]

/-- C4 witness: the antisymmetry and reflexivity conclusions evaluated at
concrete clocks through `c4_partialCmp_antisymm_refl`. -/
theorem c4_partialCmp_antisymm_refl_witness :
    keysNodup [(1, 2)] ∧
    OrdinaryClock.partialCmp [(1, 2)] [(1, 1), (2, 3)] =
      Option.map Ordering.swap (OrdinaryClock.partialCmp [(1, 1), (2, 3)] [(1, 2)]) ∧
    OrdinaryClock.eq [(1, 2)] [(1, 2)] = true :=
  ⟨by decide,
   (c4_partialCmp_antisymm_refl [(1, 2)] [(1, 1), (2, 3)] (by decide)).1,
   (c4_partialCmp_antisymm_refl [(1, 2)] [(1, 2)] (by decide)).2.1⟩

/-- The two verification loop bodies agree once `chain::verify`'s terminal
test `Some(next_stage) == task.stages.last()` is specialized to a nonempty
workflow with last stage `l`. -/
theorem chainVerifyPairs_eq_verifyPairs {C O : Type}
    (pcmp : C → C → Option Ordering) (cv : C → O → Except String Unit)
    (clocks : List (String × C)) (l : String) (output : O)
    (ps : List (String × String)) :
    chainVerifyPairs pcmp cv clocks (some l) output ps =
      verifyPairs pcmp cv clocks l output ps := by
  induction ps with
  | nil => rfl
  | cons p rest ih =>
    obtain ⟨stage, next_stage⟩ := p
    unfold chainVerifyPairs verifyPairs
    cases lookupStage clocks stage with
    | none => rfl
    | some clock =>
      cases lookupStage clocks next_stage with
      | none => rfl
      | some next_clock =>
        dsimp only
        by_cases hgt : pcmp next_clock clock = some Ordering.gt
        · rw [if_pos hgt, if_pos hgt]
          by_cases hlast : next_stage = l
          · rw [if_pos (by rw [hlast]), if_pos hlast]
            cases cv next_clock output with
            | ok u => exact ih
            | error e => rfl
          · rw [if_neg (by simpa using hlast), if_neg hlast]
            exact ih
        · rw [if_neg hgt, if_neg hgt]

/-- C5: the standalone chain verification function `chain::verify` and the
method `TaskResult::verify` return the same result on every task result,
workflow and clock client context (any clock type, any `partial_cmp`, any
context `verify`), including the empty workflow. -/
theorem c5_chain_verify_eq_result_verify {C O : Type}
    (pcmp : C → C → Option Ordering) (cv : C → O → Except String Unit)
    (tr : TaskResult C O) (task : Workflow) :
    chain.verify pcmp cv tr task = TaskResult.verify pcmp cv tr task := by
  unfold chain.verify TaskResult.verify verifyStages
  cases h : task.stages.getLast? with
  | none =>
    have hnil : task.stages = [] := List.getLast?_eq_none_iff.mp h
    rw [hnil]
    rfl
  | some l => exact chainVerifyPairs_eq_verifyPairs pcmp cv tr.clocks l tr.output _

/-- C6: for workflow `["a", "b"]`, a stage message with `source = Name("b")`
whose clocks map has entries for both "a" and "b" fails `TaskStage::verify`
with the causality-violation error whenever the clock for "b" does not
compare strictly causally-after the clock for "a" (equal, incomparable, or
less). -/
theorem c6_causality_violation {C I : Type}
    (pcmp : C → C → Option Ordering) (cv : C → I → Except String Unit)
    (tid : Nat) (input : I) (clocks : List (String × C)) (ca cb : C)
    (ha : lookupStage clocks "a" = some ca)
    (hb : lookupStage clocks "b" = some cb)
    (hcmp : pcmp cb ca ≠ some Ordering.gt) :
    TaskStage.verify pcmp cv ⟨tid, StageSource.Name "b", input, clocks⟩
      ⟨["a", "b"]⟩ = Except.error VerifyError.causalityViolation := by
  simp only [TaskStage.verify, verifyStages, consecutivePairs, verifyPairs, ha, hb]
  rw [if_neg hcmp]

/-- C6 witness: with equal vector clocks for the two stages the message is
rejected with the causality-violation error. -/
theorem c6_causality_violation_witness :
    TaskStage.verify OrdinaryClock.partialCmp OrdinaryClientContext.verify
      (⟨7, StageSource.Name "b", (), [("a", [(1, 1)]), ("b", [(1, 1)])]⟩ :
        TaskStage OrdinaryClock Unit)
      ⟨["a", "b"]⟩ = Except.error VerifyError.causalityViolation :=
  c6_causality_violation OrdinaryClock.partialCmp OrdinaryClientContext.verify 7 ()
    [("a", [(1, 1)]), ("b", [(1, 1)])] [(1, 1)] [(1, 1)] rfl rfl (by decide)

/-- C7: for workflow `["a", "b"]`, a stage message with `source = Name("b")`
whose clocks map lacks the entry for "a" or for "b" fails `TaskStage::verify`
with a missing-clock error; the result holds for every clock client context,
so the context's `verify` is never consulted. -/
theorem c7_missing_clock {C I : Type}
    (pcmp : C → C → Option Ordering) (cv : C → I → Except String Unit)
    (tid : Nat) (input : I) (clocks : List (String × C))
    (h : lookupStage clocks "a" = none ∨ lookupStage clocks "b" = none) :
    TaskStage.verify pcmp cv ⟨tid, StageSource.Name "b", input, clocks⟩
        ⟨["a", "b"]⟩ = Except.error (VerifyError.missingClock "a") ∨
      TaskStage.verify pcmp cv ⟨tid, StageSource.Name "b", input, clocks⟩
        ⟨["a", "b"]⟩ = Except.error (VerifyError.missingClock "b") := by
  rcases h with ha | hb
  · left
    simp only [TaskStage.verify, verifyStages, consecutivePairs, verifyPairs, ha]
  · cases hA : lookupStage clocks "a" with
    | none =>
      left
      simp only [TaskStage.verify, verifyStages, consecutivePairs, verifyPairs, hA]
    | some ca =>
      right
      simp only [TaskStage.verify, verifyStages, consecutivePairs, verifyPairs, hA, hb]

/-- C7 witness: a clocks map holding only stage "b" is rejected with a
missing-clock error. -/
theorem c7_missing_clock_witness :
    TaskStage.verify OrdinaryClock.partialCmp OrdinaryClientContext.verify
        (⟨7, StageSource.Name "b", (), [("b", [(1, 1)])]⟩ :
          TaskStage OrdinaryClock Unit)
        ⟨["a", "b"]⟩ = Except.error (VerifyError.missingClock "a") ∨
      TaskStage.verify OrdinaryClock.partialCmp OrdinaryClientContext.verify
        (⟨7, StageSource.Name "b", (), [("b", [(1, 1)])]⟩ :
          TaskStage OrdinaryClock Unit)
        ⟨["a", "b"]⟩ = Except.error (VerifyError.missingClock "b") :=
  c7_missing_clock OrdinaryClock.partialCmp OrdinaryClientContext.verify 7 ()
    [("b", [(1, 1)])] (Or.inl rfl)

/-- C8: `chain_propose` broadcasts (retains `some message` on the chain
channel) and answers `accepted` exactly when the verification protocol
(`chain::verify`) accepts the proposed result against the configured workflow
and clock context; on a verification failure it answers with the rejection
response carrying the error and leaves the channel's retained state
unchanged. -/
theorem c8_chain_propose_broadcast_iff_verified {C O : Type}
    (pcmp : C → C → Option Ordering) (cv : C → O → Except String Unit)
    (task : Workflow) (st : Option (TaskResult C O)) (msg : TaskResult C O) :
    ((chain_propose pcmp cv task st msg).2 = ProposeResponse.accepted ↔
      chain.verify pcmp cv msg task = Except.ok ()) ∧
    (chain.verify pcmp cv msg task = Except.ok () →
      chain_propose pcmp cv task st msg = (some msg, ProposeResponse.accepted)) ∧
    (∀ e, chain.verify pcmp cv msg task = Except.error e →
      chain_propose pcmp cv task st msg = (st, ProposeResponse.forbidden e)) := by
  cases h : chain.verify pcmp cv msg task with
  | ok u =>
    cases u
    refine ⟨?_, ?_, ?_⟩ <;> simp [chain_propose, h]
  | error e =>
    refine ⟨?_, ?_, ?_⟩ <;> simp [chain_propose, h]

/-- C8 witness: a proposal against the empty workflow verifies and is
broadcast; against workflow `["a", "b"]` a result without clocks is rejected
with the missing-clock error and the retained state stays `none`. -/
theorem c8_chain_propose_witness :
    chain_propose (fun (_ _ : Unit) => (none : Option Ordering))
        (fun _ _ => Except.ok ()) ⟨[]⟩ none
        (⟨1, (), []⟩ : TaskResult Unit Unit) =
      (some ⟨1, (), []⟩, ProposeResponse.accepted) ∧
    chain_propose (fun (_ _ : Unit) => (none : Option Ordering))
        (fun _ _ => Except.ok ()) ⟨["a", "b"]⟩ none
        (⟨1, (), []⟩ : TaskResult Unit Unit) =
      (none, ProposeResponse.forbidden (VerifyError.missingClock "a")) :=
  ⟨(c8_chain_propose_broadcast_iff_verified (fun _ _ => none)
      (fun _ _ => Except.ok ()) ⟨[]⟩ none ⟨1, (), []⟩).2.1 rfl,
   (c8_chain_propose_broadcast_iff_verified (fun _ _ => none)
      (fun _ _ => Except.ok ()) ⟨["a", "b"]⟩ none ⟨1, (), []⟩).2.2
     (VerifyError.missingClock "a") rfl⟩

/-- A clock client context whose `verify` always fails; used to exhibit
inputs on which the verification outcome is independent of the context. -/
def failContext {C O : Type} : C → O → Except String Unit :=
  fun _ _ => Except.error "context verify failed"

/-- C9 counterexample: for the one-stage workflow `["a"]` the claim says
`TaskResult::verify` succeeds exactly when the context's `verify` on the sole
stage's clock and the output succeeds.  With a context whose `verify` always
fails and a clocks map that does contain the sole stage's clock,
`TaskResult::verify` still returns `Ok`: the loop over consecutive stage
pairs is empty, so the terminal context check is never reached. -/
theorem c9_one_stage_cex :
    TaskResult.verify (fun (_ _ : Unit) => (none : Option Ordering))
        (@failContext Unit Unit) (⟨42, (), [("a", ())]⟩ : TaskResult Unit Unit)
        ⟨["a"]⟩ = Except.ok () ∧
    lookupStage [("a", ())] "a" = some () ∧
    @failContext Unit Unit () () = Except.error "context verify failed" :=
  ⟨rfl, rfl, rfl⟩

/-- C9 (amended): for every workflow with exactly one stage,
`TaskResult::verify` succeeds unconditionally — there are no consecutive
pairs to check, and the clock context's `verify` is never invoked (the
terminal check lives inside the pair loop), whatever the clocks map, output
and context are. -/
theorem c9_one_stage_verify_ok {C O : Type} (pcmp : C → C → Option Ordering)
    (cv : C → O → Except String Unit) (tr : TaskResult C O) (s : String) :
    TaskResult.verify pcmp cv tr ⟨[s]⟩ = Except.ok () :=
  rfl

/-- C10: `OrdinaryClock` equality ignores zero-valued entries: whenever two
clocks with the `HashMap` key invariant store the same count for every node
id under the absent-means-zero reading (i.e. they agree on every id with a
nonzero count and differ only by entries mapped to `0`), `partial_cmp`
returns `Equal` and `==` holds; in particular a clock all of whose entries
are `0` — which `is_genesis` accepts — is equal to the empty clock
`new_genesis()`. -/
theorem c10_eq_ignores_zero_entries (A B : OrdinaryClock)
    (hA : keysNodup A) (hB : keysNodup B)
    (h : ∀ id, getD A id = getD B id) :
    OrdinaryClock.partialCmp A B = some Ordering.eq ∧
    OrdinaryClock.eq A B = true ∧
    (OrdinaryClock.is_genesis A = true →
      OrdinaryClock.eq A OrdinaryClock.new_genesis = true) := by
  have hab : A.ge B = true := ge_of_getD_eq A B hB h
  have hba : B.ge A = true := ge_of_getD_eq B A hA (fun id => (h id).symm)
  refine ⟨?_, ?_, ?_⟩
  · simp [OrdinaryClock.partialCmp, hab, hba]
  · simp [OrdinaryClock.eq, OrdinaryClock.partialCmp, hab, hba]
  · intro hg
    unfold OrdinaryClock.is_genesis at hg
    have h1 : OrdinaryClock.ge A OrdinaryClock.new_genesis = true := rfl
    have h2 : OrdinaryClock.ge OrdinaryClock.new_genesis A = true := by
      unfold OrdinaryClock.ge
      rw [List.all_eq_true]
      intro e he
      rw [decide_eq_true_eq]
      have he0 := List.all_eq_true.mp hg e he
      simp only [beq_iff_eq] at he0
      simp [OrdinaryClock.new_genesis, getD, he0]
    simp [OrdinaryClock.eq, OrdinaryClock.partialCmp, h1, h2]

/-- C10 witness: the clock `{1: 0}` (all entries zero) is equal to the empty
clock, via `c10_eq_ignores_zero_entries`. -/
theorem c10_eq_ignores_zero_entries_witness :
    OrdinaryClock.eq [(1, 0)] [] = true ∧
    OrdinaryClock.eq [(1, 0)] OrdinaryClock.new_genesis = true := by
  have h : ∀ id, getD [(1, 0)] id = getD ([] : OrdinaryClock) id := by
    intro id
    unfold getD
    cases h1 : ((1 : Nat) == id) <;>
      simp [List.find?_cons, List.find?_nil, h1]
  exact ⟨(c10_eq_ignores_zero_entries [(1, 0)] [] (by decide) (by decide) h).2.1,
         (c10_eq_ignores_zero_entries [(1, 0)] [] (by decide) (by decide) h).2.2
           (by decide)⟩
